import Mathlib

/-!
# WhisperBridge.h: the bridging header, line by line

The repository's one source file, `src/WhisperDictation/WhisperBridge.h`, is a
bridging header: an include guard around three inclusions.  The development
below embeds the text of the header as its list of lines, classifies every line
the way a C preprocessor reads it (comments removed first, then directives
recognised by their leading `#`), and runs the header through a small model of
conditional inclusion over the set of defined macros.
-/

namespace WhisperBridge

/-! ## The text of the header -/

/-- The sixteen lines of `WhisperBridge.h`, in order, without their line
terminators.  The last line is not followed by a newline in the file. -/
def source : List String :=
  [ "//",
    "//  WhisperBridge.h",
    "//  Bridging header for whisper.cpp C API",
    "//",
    "",
    "#ifndef WhisperBridge_h",
    "#define WhisperBridge_h",
    "",
    "// Include the actual whisper.h header from whisper.cpp",
    "#include \"whisper.h\"",
    "#include \"ggml.h\"",
    "",
    "// CommonCrypto for SHA256 verification",
    "#import <CommonCrypto/CommonCrypto.h>",
    "",
    "#endif /* WhisperBridge_h */" ]

/-- The name of the file the lines of `source` come from. -/
def fileName : String := "WhisperBridge.h"

/-- The macro the include guard of the header tests and defines. -/
def guardMacro : String := "WhisperBridge_h"

/-! ## Reading one line -/

/-- Horizontal white space: a space or a tab. -/
def isBlankChar (c : Char) : Bool := c = ' ' || c = Char.ofNat 9

/-- Characters of an identifier: letters, digits and the underscore. -/
def isIdentChar (c : Char) : Bool := c.isAlphanum || c = '_'

/-- Removes the comments of one line, each replaced by one space.  The flag
says whether the text starts inside a block comment; the flag returned says
whether a block comment is still open where the line ends. -/
def stripComments : Bool → List Char → List Char × Bool
  | open_, [] => ([], open_)
  | true, '*' :: '/' :: rest =>
      let r := stripComments false rest
      (' ' :: r.1, r.2)
  | true, _ :: rest => stripComments true rest
  | false, '/' :: '/' :: _ => ([' '], false)
  | false, '/' :: '*' :: rest => stripComments true rest
  | false, c :: rest =>
      let r := stripComments false rest
      (c :: r.1, r.2)

/-- Drops the blanks a text starts with. -/
def skipBlanks (cs : List Char) : List Char := cs.dropWhile isBlankChar

/-- Drops the blanks a text ends with. -/
def trimEnd (cs : List Char) : List Char := (skipBlanks cs.reverse).reverse

/-- How an inclusion names its header: between double quotes, or between angle
brackets. -/
inductive HeaderName where
  | quoted (path : String)
  | angled (path : String)
  deriving DecidableEq, Repr

/-- The path an inclusion names, whatever its delimiters. -/
def HeaderName.path : HeaderName → String
  | .quoted p => p
  | .angled p => p

/-- The directive that pulls a header in: `#include`, or `#import` of
Objective-C. -/
inductive InclusionWord where
  | hashInclude
  | hashImport
  deriving DecidableEq, Repr

/-- One inclusion: the directive used and the header named. -/
structure Inclusion where
  word : InclusionWord
  header : HeaderName
  deriving DecidableEq, Repr

/-- What a line of the header is, once its comments are removed. -/
inductive Line where
  /-- nothing but white space -/
  | blank
  /-- nothing but white space and comments -/
  | comment
  /-- `#ifndef NAME` -/
  | ifndef (name : String)
  /-- `#define NAME body`, or `#define NAME(...) body` when `functionLike` -/
  | define (name : String) (functionLike : Bool) (body : String)
  /-- `#endif` -/
  | endif
  /-- `#include` or `#import` of a quoted or angled header name -/
  | inclusion (inc : Inclusion)
  /-- any other line starting with `#` -/
  | otherDirective (word : String)
  /-- anything else: declarations, definitions, statements -/
  | code (text : String)
  deriving DecidableEq, Repr

/-- Reads the header name after `#include` or `#import`: the text up to the
closing `"` or `>`.  Nothing when the operand is not a delimited header name. -/
def parseHeaderName (cs : List Char) : Option HeaderName :=
  match skipBlanks cs with
  | '"' :: rest =>
      if '"' ∈ rest then some (.quoted (String.mk (rest.takeWhile (· ≠ '"')))) else none
  | '<' :: rest =>
      if '>' ∈ rest then some (.angled (String.mk (rest.takeWhile (· ≠ '>')))) else none
  | _ => none

/-- Reads a directive; the argument is the text after the `#`. -/
def parseDirective (cs : List Char) : Line :=
  let cs := skipBlanks cs
  let word := cs.takeWhile isIdentChar
  let rest := cs.dropWhile isIdentChar
  let arg := skipBlanks rest
  let name := String.mk (arg.takeWhile isIdentChar)
  let after := arg.dropWhile isIdentChar
  if word = "ifndef".data then .ifndef name
  else if word = "define".data then
    .define name (after.head? = some '(') (String.mk (trimEnd (skipBlanks after)))
  else if word = "endif".data then .endif
  else if word = "include".data then
    match parseHeaderName rest with
    | some h => .inclusion ⟨.hashInclude, h⟩
    | none => .otherDirective (String.mk word)
  else if word = "import".data then
    match parseHeaderName rest with
    | some h => .inclusion ⟨.hashImport, h⟩
    | none => .otherDirective (String.mk word)
  else .otherDirective (String.mk word)

/-- Classifies one line of the header. -/
def classify (line : String) : Line :=
  if line.data.all isBlankChar then .blank
  else
    let text := skipBlanks (stripComments false line.data).1
    match text with
    | [] => .comment
    | '#' :: rest => parseDirective rest
    | _ => .code (String.mk (trimEnd text))

/-- The lines of the header, classified. -/
def parsed : List Line := source.map classify

/-- The inclusions of the header, in the order of its lines. -/
def inclusions : List Inclusion :=
  parsed.filterMap fun
    | .inclusion inc => some inc
    | _ => none

/-- The directory an inclusion looks its header up in: the path up to its first
`/`, empty when the path has no `/`. -/
def HeaderName.directory (h : HeaderName) : String :=
  if '/' ∈ h.path.data then String.mk (h.path.data.takeWhile (· ≠ '/')) else ""

/-- Whether the header name is written between double quotes. -/
def HeaderName.isQuoted : HeaderName → Bool
  | .quoted _ => true
  | .angled _ => false

/-- Whether the header name is written between angle brackets, the form of a
system header. -/
def HeaderName.isAngled : HeaderName → Bool
  | .quoted _ => false
  | .angled _ => true

/-- Whether the text of a line, comments removed, starts with `#`. -/
def isDirectiveLine (line : String) : Bool :=
  (skipBlanks (stripComments false line.data).1).head? = some '#'

/-- Whether a line belongs to the include guard: `#ifndef` or an object-like,
empty `#define` of the guard macro, or `#endif`. -/
def Line.isGuardPart : Line → Bool
  | .ifndef n => n = guardMacro
  | .define n functionLike body => n = guardMacro && !functionLike && body = ""
  | .endif => true
  | _ => false

/-- Whether a line includes or imports a header. -/
def Line.isInclusion : Line → Bool
  | .inclusion _ => true
  | _ => false

/-- Whether a line includes or imports a header other than this file. -/
def Line.isInclusionOfOther : Line → Bool
  | .inclusion inc => inc.header.path ≠ fileName
  | _ => false

/-- Whether a line introduces something of the file's own: code (a function,
type, class or variable) or a function-like macro. -/
def Line.declares : Line → Bool
  | .code _ => true
  | .define _ functionLike _ => functionLike
  | _ => false

/-! ## Conditional inclusion

The preprocessor is modelled by what it does to the set of defined macros and
by the inclusions it carries out.  Included headers are not expanded: an
inclusion that is carried out is recorded, in order. -/

/-- The state of the preprocessor inside a file. -/
structure PPState where
  /-- the macros defined so far -/
  macros : Finset String
  /-- the conditional groups open at this point, innermost first: whether the
  lines of the group are processed -/
  conds : List Bool
  /-- the inclusions carried out so far, oldest first -/
  emitted : List Inclusion

/-- Whether the lines at this point are processed: no conditional group is open
or the innermost one is. -/
def PPState.active (st : PPState) : Bool := st.conds.headD true

/-- Processes one line.  `#ifndef` opens a group, processed when the lines
around it are and the macro is not defined; `#endif` closes the innermost
group; `#define` and inclusions take effect only in processed lines. -/
def step (st : PPState) : Line → PPState
  | .ifndef n => { st with conds := (st.active && decide (n ∉ st.macros)) :: st.conds }
  | .endif => { st with conds := st.conds.tail }
  | .define n _ _ => if st.active then { st with macros := insert n st.macros } else st
  | .inclusion inc => if st.active then { st with emitted := st.emitted ++ [inc] } else st
  | _ => st

/-- Processes a file from a given set of defined macros: the macros defined at
its end and the inclusions carried out. -/
def preprocess (lines : List Line) (macros : Finset String) : Finset String × List Inclusion :=
  let st := lines.foldl step ⟨macros, [], []⟩
  (st.macros, st.emitted)

/-- Including `WhisperBridge.h` once. -/
def includeOnce (macros : Finset String) : Finset String × List Inclusion :=
  preprocess parsed macros

/-- Including `WhisperBridge.h` twice in a row in one translation unit. -/
def includeTwice (macros : Finset String) : Finset String × List Inclusion :=
  let first := includeOnce macros
  let second := includeOnce first.1
  (second.1, first.2 ++ second.2)

/-- The three inclusions of the header. -/
def threeInclusions : List Inclusion :=
  [ ⟨.hashInclude, .quoted "whisper.h"⟩,
    ⟨.hashInclude, .quoted "ggml.h"⟩,
    ⟨.hashImport, .angled "CommonCrypto/CommonCrypto.h"⟩ ]

/-! ## Lemmas -/

/-- The header, classified: what each of its sixteen lines is. -/
theorem parsed_eq :
    parsed =
      [ .comment, .comment, .comment, .comment, .blank,
        .ifndef guardMacro, .define guardMacro false "", .blank,
        .comment,
        .inclusion ⟨.hashInclude, .quoted "whisper.h"⟩,
        .inclusion ⟨.hashInclude, .quoted "ggml.h"⟩,
        .blank, .comment,
        .inclusion ⟨.hashImport, .angled "CommonCrypto/CommonCrypto.h"⟩,
        .blank, .endif ] := by
  decide

/-- No comment of the header runs over the end of its line, so that each line
can be classified on its own. -/
theorem no_comment_spans_lines :
    ∀ l ∈ source, (stripComments false l.data).2 = false := by
  decide

/-- The conditional directives of the header are the `#ifndef` of the guard
macro and, after it, one `#endif`: the `#endif` closes the guard. -/
theorem guard_is_the_only_conditional :
    parsed.filter (fun l => l.isGuardPart && l != .define guardMacro false "") =
      [.ifndef guardMacro, .endif] := by
  decide

/-- Including the header where the guard macro is not defined carries out the
three inclusions and defines the guard macro. -/
theorem includeOnce_fresh (macros : Finset String) (h : guardMacro ∉ macros) :
    includeOnce macros = (insert guardMacro macros, threeInclusions) := by
  simp [includeOnce, preprocess, parsed_eq, step, PPState.active, h, threeInclusions]

/-- Including the header where the guard macro is defined does nothing. -/
theorem includeOnce_guarded (macros : Finset String) (h : guardMacro ∈ macros) :
    includeOnce macros = (macros, []) := by
  simp [includeOnce, preprocess, parsed_eq, step, PPState.active, h]

/-- The guard is what makes the second inclusion empty: the same lines without
the three guard directives carry out the three inclusions again even where
`WhisperBridge_h` is defined. -/
theorem without_guard_inclusions_repeat :
    (preprocess (parsed.filter fun l => !l.isGuardPart) {guardMacro}).2 = threeInclusions := by
  have lines : (parsed.filter fun l => !l.isGuardPart) =
      [ .comment, .comment, .comment, .comment, .blank, .blank, .comment,
        .inclusion ⟨.hashInclude, .quoted "whisper.h"⟩,
        .inclusion ⟨.hashInclude, .quoted "ggml.h"⟩,
        .blank, .comment,
        .inclusion ⟨.hashImport, .angled "CommonCrypto/CommonCrypto.h"⟩,
        .blank ] := by
    decide
  simp [lines, preprocess, step, PPState.active, threeInclusions]

/-! ## The claims -/

/-- C1: every line of `WhisperBridge.h` that is neither blank nor a comment is
a preprocessor directive, and that directive is part of the include guard
(`#ifndef`, `#define` or `#endif` of `WhisperBridge_h`) or includes or imports
a header other than this file; no line declares a function, type, class,
variable or function-like macro. -/
theorem directives_are_guard_or_inclusion (l : String) (hl : l ∈ source)
    (hb : classify l ≠ .blank) (hc : classify l ≠ .comment) :
    isDirectiveLine l = true ∧
      ((classify l).isGuardPart = true ∨ (classify l).isInclusionOfOther = true) ∧
      (classify l).declares = false := by
  have key : ∀ l ∈ source, classify l ≠ .blank → classify l ≠ .comment →
      isDirectiveLine l = true ∧
        ((classify l).isGuardPart = true ∨ (classify l).isInclusionOfOther = true) ∧
        (classify l).declares = false := by
    decide
  exact key l hl hb hc

/-- C1 at line 6 of the header, `#ifndef WhisperBridge_h`: a directive, part of
the include guard, declaring nothing. -/
theorem directives_are_guard_or_inclusion_witness :
    isDirectiveLine "#ifndef WhisperBridge_h" = true ∧
      ((classify "#ifndef WhisperBridge_h").isGuardPart = true ∨
        (classify "#ifndef WhisperBridge_h").isInclusionOfOther = true) ∧
      (classify "#ifndef WhisperBridge_h").declares = false :=
  directives_are_guard_or_inclusion "#ifndef WhisperBridge_h"
    (by decide) (by decide) (by decide)

/-- C2: the headers `WhisperBridge.h` pulls in are, in order, `#include
"whisper.h"`, `#include "ggml.h"` and `#import <CommonCrypto/CommonCrypto.h>`
and no other: two quoted includes, both by `#include`, and one system import,
of the `CommonCrypto` directory. -/
theorem inclusions_are_exactly_three :
    inclusions =
        [ ⟨.hashInclude, .quoted "whisper.h"⟩,
          ⟨.hashInclude, .quoted "ggml.h"⟩,
          ⟨.hashImport, .angled "CommonCrypto/CommonCrypto.h"⟩ ] ∧
      inclusions.length = 3 ∧
      (inclusions.filter (fun i => i.header.isQuoted)).map (fun i => i.header.path) =
        ["whisper.h", "ggml.h"] ∧
      (inclusions.filter (fun i => i.header.isAngled)).map (fun i => i.header.directory) =
        ["CommonCrypto"] ∧
      (parsed.filter Line.isInclusion).length = 3 := by
  decide

/-- C3, refuted as stated: line 6 of the header is `#ifndef WhisperBridge_h`,
which holds no comment and is no inclusion, and line 5 is empty, so not every
one of the 16 lines is an include or import directive or a comment. -/
theorem not_every_line_is_inclusion_or_comment :
    source.length = 16 ∧
      source[4]? = some "" ∧
      source[5]? = some "#ifndef WhisperBridge_h" ∧
      classify "" = .blank ∧
      classify "#ifndef WhisperBridge_h" = .ifndef guardMacro ∧
      (stripComments false "#ifndef WhisperBridge_h".data).1 = "#ifndef WhisperBridge_h".data ∧
      ¬ (∀ l ∈ source, (classify l).isInclusion = true ∨ classify l = .comment) := by
  decide

/-- C3, amended: `WhisperBridge.h` is 16 lines long and every one of its 16
lines is an include or import directive, a comment, a blank line or a directive
of the include guard. -/
theorem every_line_is_inclusion_comment_blank_or_guard :
    source.length = 16 ∧
      ∀ l ∈ source, (classify l).isInclusion = true ∨ classify l = .comment ∨
        classify l = .blank ∨ (classify l).isGuardPart = true := by
  decide

/-- C4: including `WhisperBridge.h` where `WhisperBridge_h` is not defined
carries out the three inclusions and leaves `WhisperBridge_h` defined;
including it where `WhisperBridge_h` is defined carries out no inclusion and
leaves the set of macros as it was; so including the header twice gives the
inclusions and the macros of including it once. -/
theorem include_guard_idempotent (macros : Finset String) :
    (guardMacro ∉ macros →
        includeOnce macros =
          (insert guardMacro macros,
            [ ⟨.hashInclude, .quoted "whisper.h"⟩,
              ⟨.hashInclude, .quoted "ggml.h"⟩,
              ⟨.hashImport, .angled "CommonCrypto/CommonCrypto.h"⟩ ])) ∧
      (guardMacro ∈ macros → includeOnce macros = (macros, [])) ∧
      guardMacro ∈ (includeOnce macros).1 ∧
      includeTwice macros = includeOnce macros := by
  have once : guardMacro ∈ (includeOnce macros).1 := by
    by_cases h : guardMacro ∈ macros
    · rw [includeOnce_guarded macros h]; exact h
    · rw [includeOnce_fresh macros h]; exact Finset.mem_insert_self _ _
  refine ⟨fun h => includeOnce_fresh macros h, includeOnce_guarded macros, once, ?_⟩
  have second := includeOnce_guarded (includeOnce macros).1 once
  simp only [includeTwice, second, List.append_nil]

/-- C4 at two concrete macro sets: from no macro at all the header carries out
its three inclusions and defines `WhisperBridge_h`; from the set holding only
`WhisperBridge_h` it does nothing; twice from no macro is once. -/
theorem include_guard_idempotent_witness :
    includeOnce ∅ =
        (insert guardMacro ∅,
          [ ⟨.hashInclude, .quoted "whisper.h"⟩,
            ⟨.hashInclude, .quoted "ggml.h"⟩,
            ⟨.hashImport, .angled "CommonCrypto/CommonCrypto.h"⟩ ]) ∧
      includeOnce {guardMacro} = ({guardMacro}, []) ∧
      includeTwice ∅ = includeOnce ∅ :=
  ⟨(include_guard_idempotent ∅).1 (Finset.not_mem_empty _),
    (include_guard_idempotent {guardMacro}).2.1 (Finset.mem_singleton_self _),
    (include_guard_idempotent ∅).2.2.2⟩

end WhisperBridge
